import Mathlib

/-!
Verification of the google-sheets-to-json-converter pipeline (src/index.js).

The embedding models JavaScript values produced by the CSV parser
(Papa.parse with dynamicTyping) as an inductive `Value`, JavaScript
objects as ordered association lists with insertion-preserving updates,
JavaScript numbers appearing in coordinates as `JsNum` (rationals plus
NaN and signed Infinity, as produced by `parseFloat`), and each function
of the source file as a Lean function.
-/

namespace SheetsToGeoJson

/-- A JavaScript value as produced by Papa.parse with dynamicTyping:
string, number, boolean, or null. Numbers are modelled as rationals. -/
inductive Value where
  | vStr (s : String)
  | vNum (q : ℚ)
  | vBool (b : Bool)
  | vNull
deriving DecidableEq, Repr

/-- The result of JavaScript `parseFloat`: NaN, signed Infinity, or a
finite number (modelled as a rational; -0 is conflated with 0). -/
inductive JsNum where
  | nan
  | inf (neg : Bool)
  | num (q : ℚ)
deriving DecidableEq, Repr

/-- A JavaScript object: an ordered association list from property name
to value. JavaScript objects cannot have duplicate keys; lists coming
from object construction always have `Nodup` keys. -/
abbrev Obj := List (String × Value)

/-- `s.startsWith(pre)`, modelled structurally over the characters. -/
def jsStartsWith (s pre : String) : Bool :=
  pre.data.isPrefixOf s.data

/-- `item.hasOwnProperty(k)`. -/
def hasOwnProperty {α : Type} (o : List (String × α)) (k : String) : Bool :=
  o.any (fun p => p.1 == k)

/-- `item[k]`: `some v` for a present property, `none` for `undefined`. -/
def jsGet {α : Type} (o : List (String × α)) (k : String) : Option α :=
  (o.find? (fun p => p.1 == k)).map Prod.snd

/-- `o[k] = v`: overwrite the binding in place when the key exists
(keeping its position, as JavaScript does), otherwise append at the
end. -/
def objSet {α : Type} (o : List (String × α)) (k : String) (v : α) :
    List (String × α) :=
  match o with
  | [] => [(k, v)]
  | p :: t => if p.1 == k then (k, v) :: t else p :: objSet t k v

/-- Whitespace as matched by the JavaScript `\s` regular-expression
class and skipped by `parseFloat` (StrWhiteSpace): ASCII whitespace,
NBSP, BOM, and the Unicode line/paragraph separators. -/
def isJsWhitespace (c : Char) : Bool :=
  c == ' ' || c == '\t' || c == '\n' || c == '\x0d' ||
  c == '\x0b' || c == '\x0c' ||
  c.toNat == 0xa0 || c.toNat == 0x1680 ||
  (0x2000 <= c.toNat && c.toNat <= 0x200a) ||
  c.toNat == 0x2028 || c.toNat == 0x2029 ||
  c.toNat == 0x202f || c.toNat == 0x205f ||
  c.toNat == 0x3000 || c.toNat == 0xfeff

/-- Numeric value of a list of decimal digits. -/
def natOfDigits (ds : List Char) : Nat :=
  ds.foldl (fun acc c => 10 * acc + (c.toNat - '0'.toNat)) 0

/-- The optional ExponentPart at the head of the remaining input:
`e`/`E`, an optional sign, then digits. An `e` not followed by digits
contributes nothing (parseFloat keeps the longest valid prefix). -/
def parseExponentPart (cs : List Char) : Int :=
  match cs with
  | [] => 0
  | c :: rest =>
    if c == 'e' || c == 'E' then
      let signed : Bool × List Char :=
        match rest with
        | '+' :: r => (false, r)
        | '-' :: r => (true, r)
        | r => (false, r)
      let ds := signed.2.takeWhile Char.isDigit
      if ds.isEmpty then 0
      else if signed.1 then -(natOfDigits ds : Int) else (natOfDigits ds : Int)
    else 0

/-- JavaScript `parseFloat` on a string: skip leading whitespace, an
optional sign, then the longest prefix that is `Infinity` or a decimal
literal (digits, optional fraction, optional exponent); anything after
that prefix is ignored; no valid prefix yields NaN. -/
def parseFloatString (s : String) : JsNum :=
  let cs := s.data.dropWhile isJsWhitespace
  let signed : Bool × List Char :=
    match cs with
    | '+' :: r => (false, r)
    | '-' :: r => (true, r)
    | r => (false, r)
  let neg := signed.1
  let cs1 := signed.2
  if "Infinity".data.isPrefixOf cs1 then JsNum.inf neg
  else
    let intDigits := cs1.takeWhile Char.isDigit
    let rest1 := cs1.dropWhile Char.isDigit
    let fracAndRest : List Char × List Char :=
      match rest1 with
      | '.' :: r => (r.takeWhile Char.isDigit, r.dropWhile Char.isDigit)
      | _ => ([], rest1)
    let fracDigits := fracAndRest.1
    if intDigits.isEmpty && fracDigits.isEmpty then JsNum.nan
    else
      let mantissa : ℚ :=
        (natOfDigits intDigits : ℚ) +
          (natOfDigits fracDigits : ℚ) / ((10 : ℚ) ^ fracDigits.length)
      let mag : ℚ := mantissa * (10 : ℚ) ^ parseExponentPart fracAndRest.2
      JsNum.num (if neg then -mag else mag)

/-- `parseFloat(item[k])` for a property that may be absent: JavaScript
first converts the argument to a string (`undefined`, `null`, `true`,
`false` all parse to NaN; a number round-trips through its decimal
representation), then parses it. -/
def jsParseFloat : Option Value → JsNum
  | none => JsNum.nan
  | some (Value.vStr s) => parseFloatString s
  | some (Value.vNum q) => JsNum.num q
  | some (Value.vBool _) => JsNum.nan
  | some Value.vNull => JsNum.nan

/-- The `geometry` member of a feature. -/
structure Geometry where
  gtype : String
  coordinates : List JsNum
deriving DecidableEq, Repr

/-- One GeoJSON feature as built by the converter. -/
structure Feature where
  ftype : String
  geometry : Geometry
  properties : Obj
deriving DecidableEq, Repr

/-- The fixed `crs` member of the output collection. -/
structure Crs where
  ctype : String
  properties : Obj
deriving DecidableEq, Repr

/-- The output FeatureCollection document. -/
structure FeatureCollection where
  ftype : String
  name : String
  crs : Crs
  features : List Feature
deriving DecidableEq, Repr

/-- The constant CRS object emitted by the converter. -/
def crsValue : Crs :=
  { ctype := "name"
    properties := [("name", Value.vStr "urn:ogc:def:crs:OGC:1.3:CRS84")] }

/-- The body of the `forEach` callback on `propertiesToInclude`
(src/index.js lines 34-38): `if (item.hasOwnProperty(key))
properties[key] = item[key]`. -/
def includeStep (item : Obj) (props : Obj) (k : String) : Obj :=
  if hasOwnProperty item k then
    match jsGet item k with
    | some v => objSet props k v
    | none => props
  else props

/-- The body of the `for...in` loop over the record (src/index.js lines
41-45): copy the field unless it is `latKey`, `lngKey`, or starts with
`-`. -/
def excludeStep (latKey lngKey : String) (props : Obj)
    (p : String × Value) : Obj :=
  if p.1 != latKey && p.1 != lngKey && !(jsStartsWith p.1 "-") then
    objSet props p.1 p.2
  else props

/-- The `properties` object built for one record: when
`propertiesToInclude` is non-empty, copy every listed key the record
owns, in list order; otherwise copy every field except `latKey`,
`lngKey`, and names starting with `-` (src/index.js lines 32-46). -/
def mkProperties (item : Obj) (latKey lngKey : String)
    (propertiesToInclude : List String) : Obj :=
  if propertiesToInclude.length > 0 then
    propertiesToInclude.foldl (includeStep item) []
  else
    item.foldl (excludeStep latKey lngKey) []

/-- The object the `map` callback returns for one record
(src/index.js lines 48-55). -/
def featureValue (item : Obj) (latKey lngKey : String)
    (propertiesToInclude : List String) : Feature :=
  let latitude := jsParseFloat (jsGet item latKey)
  let longitude := jsParseFloat (jsGet item lngKey)
  { ftype := "Feature"
    geometry := { gtype := "Point", coordinates := [longitude, latitude] }
    properties := mkProperties item latKey lngKey propertiesToInclude }

/-- The feature built for one record (the body of the `map` callback,
src/index.js lines 26-55). The callback always returns an object, so
the result is always `some`; the `Option` records that the surrounding
code filters against `null`. -/
def mkFeature (item : Obj) (latKey lngKey : String)
    (propertiesToInclude : List String) : Option Feature :=
  some (featureValue item latKey lngKey propertiesToInclude)

/-- `convertAssociativeArrayToGeoJSON` (src/index.js lines 25-64):
map every record to a feature, drop `null` entries (the defensive
filter), and wrap in a FeatureCollection with the given name and the
fixed CRS. -/
def convertAssociativeArrayToGeoJSON (dataArray : List Obj)
    (latKey lngKey layer_name : String)
    (propertiesToInclude : List String := []) : FeatureCollection :=
  let geojsonFeatures :=
    (dataArray.map
      (fun item => mkFeature item latKey lngKey propertiesToInclude)).filterMap id
  { ftype := "FeatureCollection"
    name := layer_name
    crs := crsValue
    features := geojsonFeatures }

/-- `hay.includes(pat)`: `pat` occurs as a contiguous substring. -/
def listContainsSub (hay pat : List Char) : Bool :=
  match hay with
  | [] => pat.isEmpty
  | c :: t => pat.isPrefixOf (c :: t) || listContainsSub t pat

/-- JavaScript `String.prototype.includes` with a string argument. -/
def jsIncludes (s pat : String) : Bool :=
  listContainsSub s.data pat.data

/-- `verifyCleanData` (src/index.js lines 78-86), with the file read
abstracted into the `data` argument: warn on `#REF!` first, else on
`Loading`, else return `undefined` (`none`). -/
def verifyCleanData (data filename : String) : Option String :=
  if jsIncludes data "#REF!" then
    some ("#REF! found in " ++ filename)
  else if jsIncludes data "Loading" then
    some ("Loading... found in " ++ filename)
  else none

/-- `dataset.replace(/\s/g, '-')` (src/index.js lines 73-75): the
regular expression matches single whitespace characters and the global
flag replaces every match, so each whitespace character becomes `-`. -/
def jsReplaceWsGlobal (s : String) : String :=
  ⟨s.data.map (fun c => if isJsWhitespace c then '-' else c)⟩

/-- The three cache file names written by `fetchAndCacheData`
(src/index.js lines 73-75), relative to the cache directory. -/
def cacheArtifactNames (dataset : String) : List String :=
  [jsReplaceWsGlobal dataset ++ ".csv",
   jsReplaceWsGlobal dataset ++ ".geojson",
   jsReplaceWsGlobal dataset ++ ".min.geojson"]

/-- `s.toLowerCase()`; faithful on the ASCII dataset names in use. -/
def jsToLowerCase (s : String) : String :=
  ⟨s.data.map Char.toLower⟩

/-- Core of `s.replace(pat, rep)` with a *string* pattern: JavaScript
replaces only the first occurrence. An empty pattern matches at the
start. -/
def replaceFirstAux (hay pat rep : List Char) : List Char :=
  match hay with
  | [] => if pat.isEmpty then rep else []
  | c :: t =>
    if pat.isPrefixOf (c :: t) then rep ++ (c :: t).drop pat.length
    else c :: replaceFirstAux t pat rep

/-- JavaScript `s.replace(pat, rep)` with a plain-string pattern. -/
def jsReplaceFirst (s pat rep : String) : String :=
  ⟨replaceFirstAux s.data pat.data rep.data⟩

/-- The collection name passed to the converter by `fetchAndCacheData`
(src/index.js line 71): `dataset.toLowerCase().replace(' ', '-')`. -/
def collectionName (dataset : String) : String :=
  jsReplaceFirst (jsToLowerCase dataset) " " "-"

/-- The FeatureCollection built by `fetchAndCacheData` (src/index.js
lines 70-71) from the parsed records of one dataset: fixed field names
`Latitude`/`Longitude`, collection name derived from the dataset name,
no include list. -/
def fetchedGeoJson (records : List Obj) (dataset : String) : FeatureCollection :=
  convertAssociativeArrayToGeoJSON records "Latitude" "Longitude"
    (collectionName dataset) []

/-- The entries of the `dataSets` object literal (src/index.js lines
99-121), in source order, duplicates included. -/
def catalogEntries : List (String × String) :=
  [("0", "Fire Stations"),
   ("867350358", "Police Stations"),
   ("396287298", "Civil Supplies Godowns"),
   ("2107086279", "Ambulances"),
   ("410764449", "Apada Mitras"),
   ("973534772", "Apada Sakhis"),
   ("1309860234", "Cyclone Shelters"),
   ("36114476", "Dam Levels"),
   ("302060060", "Fire Appliances"),
   ("392979524", "Heavy Machinery"),
   ("495904604", "Hospitals"),
   ("236724982", "MHA Units"),
   ("1768104908", "Mutual Aid Agencies"),
   ("443003227", "Panchayats"),
   ("1689409318", "River Gauges"),
   ("1786282296", "Schools"),
   ("1929576986", "Tree Cutters"),
   ("920360157", "Water Resources"),
   ("0", "Capacity Building"),
   ("0", "High Density Spaces"),
   ("0", "Boats")]

/-- The `dataSets` object as JavaScript evaluates the literal: each
entry is assigned in order, a repeated key overwriting the earlier
binding (last write wins). -/
def dataSets : List (String × String) :=
  catalogEntries.foldl (fun o p => objSet o p.1 p.2) []

/-- The identifiers the batch driver iterates over
(`Object.keys(dataSets)`, src/index.js lines 123 and 130). -/
def batchIdentifiers : List String :=
  dataSets.map (fun p => p.1)

/-- The display names the batch driver fetches, caches and verifies
(`dataSets[key]`, src/index.js lines 124, 131). -/
def fetchedDatasetNames : List String :=
  dataSets.map (fun p => p.2)

/-! ### Store-instrumented converter

To reason about mutation, the same converter is embedded a second time
with the JavaScript object store explicit: records are passed by
address into a heap of objects, the fresh `properties` object of each
feature is allocated in that heap, and every property assignment is a
heap write. The only writes the source performs are to the freshly
allocated `properties` objects. -/

/-- A heap of JavaScript objects; an address is an index. -/
abbrev Heap := List Obj

/-- Allocate a new object, returning the extended heap and its address. -/
def allocH (h : Heap) (o : Obj) : Heap × Nat :=
  (h ++ [o], h.length)

/-- Dereference an address (a dangling address reads as the empty
object; the driver only passes valid addresses). -/
def readH (h : Heap) (a : Nat) : Obj :=
  h.getD a []

/-- Overwrite the object at an address. -/
def writeH (h : Heap) (a : Nat) (o : Obj) : Heap :=
  h.set a o

/-- One `forEach` iteration of the include branch, on the heap: read
the record at `ia`, and on success assign into the properties object at
`pa` (src/index.js lines 34-38). -/
def includeStepH (ia pa : Nat) (hh : Heap) (k : String) : Heap :=
  if hasOwnProperty (readH hh ia) k then
    match jsGet (readH hh ia) k with
    | some v => writeH hh pa (objSet (readH hh pa) k v)
    | none => hh
  else hh

/-- One `for...in` iteration of the exclude branch, on the heap
(src/index.js lines 41-45). -/
def excludeStepH (ia pa : Nat) (latKey lngKey : String) (hh : Heap)
    (p : String × Value) : Heap :=
  if p.1 != latKey && p.1 != lngKey && !(jsStartsWith p.1 "-") then
    writeH hh pa
      (objSet (readH hh pa) p.1 ((jsGet (readH hh ia) p.1).getD Value.vNull))
  else hh

/-- Heap version of building the `properties` object for one record at
address `ia` (src/index.js lines 32-46): allocate `{}`, then assign the
selected properties into it one by one, reading the record through the
heap at each access. -/
def mkPropertiesH (h : Heap) (ia : Nat) (latKey lngKey : String)
    (propertiesToInclude : List String) : Heap × Nat :=
  let alloc := allocH h []
  if propertiesToInclude.length > 0 then
    (propertiesToInclude.foldl (includeStepH ia alloc.2) alloc.1, alloc.2)
  else
    ((readH alloc.1 ia).foldl (excludeStepH ia alloc.2 latKey lngKey) alloc.1,
      alloc.2)

/-- A feature whose `properties` member is a reference into the heap. -/
structure FeatureH where
  ftype : String
  geometry : Geometry
  propertiesAddr : Nat
deriving DecidableEq, Repr

/-- Heap version of the `map` callback (src/index.js lines 26-55). -/
def mkFeatureH (h : Heap) (ia : Nat) (latKey lngKey : String)
    (propertiesToInclude : List String) : Heap × FeatureH :=
  let latitude := jsParseFloat (jsGet (readH h ia) latKey)
  let longitude := jsParseFloat (jsGet (readH h ia) lngKey)
  let built := mkPropertiesH h ia latKey lngKey propertiesToInclude
  (built.1,
    { ftype := "Feature"
      geometry := { gtype := "Point", coordinates := [longitude, latitude] }
      propertiesAddr := built.2 })

/-- A FeatureCollection over heap-referencing features. -/
structure FeatureCollectionH where
  ftype : String
  name : String
  crs : Crs
  features : List FeatureH
deriving DecidableEq, Repr

/-- One iteration of the `map` over the records, on the heap: build the
next feature from the current heap and append it. -/
def convertLoopStep (latKey lngKey : String) (propertiesToInclude : List String)
    (acc : Heap × List FeatureH) (ia : Nat) : Heap × List FeatureH :=
  let step := mkFeatureH acc.1 ia latKey lngKey propertiesToInclude
  (step.1, acc.2 ++ [step.2])

/-- Heap version of `convertAssociativeArrayToGeoJSON`: the records
arrive as a list of addresses and are mapped in order, threading the
heap. -/
def convertH (h : Heap) (addrs : List Nat)
    (latKey lngKey layer_name : String)
    (propertiesToInclude : List String) : Heap × FeatureCollectionH :=
  let mapped := addrs.foldl (convertLoopStep latKey lngKey propertiesToInclude)
    (h, [])
  (mapped.1,
    { ftype := "FeatureCollection"
      name := layer_name
      crs := crsValue
      features := mapped.2 })

/-! ### Lemmas about the object operations -/

theorem jsGet_nil {α : Type} (k : String) :
    jsGet ([] : List (String × α)) k = none := rfl

theorem hasOwnProperty_cons {α : Type} (p : String × α) (t : List (String × α))
    (k : String) :
    hasOwnProperty (p :: t) k = ((p.1 == k) || hasOwnProperty t k) := by
  simp [hasOwnProperty]

theorem jsGet_cons {α : Type} (p : String × α) (t : List (String × α)) (k : String) :
    jsGet (p :: t) k = if p.1 == k then some p.2 else jsGet t k := by
  by_cases h : (p.1 == k) = true
  · simp [jsGet, List.find?_cons, h]
  · simp only [Bool.not_eq_true] at h
    simp [jsGet, List.find?_cons, h]

theorem objSet_cons {α : Type} (p : String × α) (t : List (String × α))
    (k : String) (v : α) :
    objSet (p :: t) k v = if p.1 = k then (k, v) :: t else p :: objSet t k v := by
  by_cases h : p.1 = k
  · simp [objSet, h]
  · simp [objSet, beq_eq_false_iff_ne.mpr h, h]

theorem objSet_of_not_has {α : Type} (o : List (String × α)) (k : String) (v : α)
    (h : hasOwnProperty o k = false) :
    objSet o k v = o ++ [(k, v)] := by
  induction o with
  | nil => rfl
  | cons p t ih =>
    rw [hasOwnProperty_cons, Bool.or_eq_false_iff] at h
    rw [objSet_cons, if_neg (beq_eq_false_iff_ne.mp h.1), ih h.2]
    rfl

theorem jsGet_objSet {α : Type} (o : List (String × α)) (k k' : String) (v : α) :
    jsGet (objSet o k v) k' = if k = k' then some v else jsGet o k' := by
  induction o with
  | nil =>
    by_cases h : k = k'
    · simp [objSet, jsGet, List.find?, h]
    · simp [objSet, jsGet, List.find?, h, beq_eq_false_iff_ne.mpr h]
  | cons p t ih =>
    rw [objSet_cons]
    by_cases hpk : p.1 = k
    · rw [if_pos hpk, jsGet_cons, jsGet_cons]
      by_cases h : k = k'
      · simp [h]
      · have hpq : (p.1 == k') = false :=
          beq_eq_false_iff_ne.mpr (by rw [hpk]; exact h)
        simp [beq_eq_false_iff_ne.mpr h, h, hpq]
    · rw [if_neg hpk, jsGet_cons, jsGet_cons]
      by_cases hq : p.1 = k'
      · have h : ¬k = k' := fun he => hpk (hq.trans he.symm)
        simp [hq, h]
      · simp [beq_eq_false_iff_ne.mpr hq, ih]

theorem jsGet_objSet_self {α : Type} (o : List (String × α)) (k : String) (v : α) :
    jsGet (objSet o k v) k = some v := by
  simp [jsGet_objSet]

theorem jsGet_objSet_ne {α : Type} (o : List (String × α)) (k k' : String) (v : α)
    (h : k' ≠ k) :
    jsGet (objSet o k v) k' = jsGet o k' := by
  simp [jsGet_objSet, Ne.symm h]

theorem hasOwn_eq_isSome {α : Type} (o : List (String × α)) (k : String) :
    hasOwnProperty o k = (jsGet o k).isSome := by
  induction o with
  | nil => rfl
  | cons p t ih =>
    rw [hasOwnProperty_cons, jsGet_cons]
    by_cases h : (p.1 == k) = true
    · simp [h]
    · simp only [Bool.not_eq_true] at h
      simp [h, ih]

theorem includeStep_eq_match (item props : Obj) (k : String) :
    includeStep item props k
      = match jsGet item k with
        | some v => objSet props k v
        | none => props := by
  unfold includeStep
  rw [hasOwn_eq_isSome]
  cases hj : jsGet item k <;> simp [hj]

theorem hasOwnProperty_append {α : Type} (o₁ o₂ : List (String × α)) (k : String) :
    hasOwnProperty (o₁ ++ o₂) k = (hasOwnProperty o₁ k || hasOwnProperty o₂ k) := by
  simp [hasOwnProperty, List.any_append]

theorem includeStep_of_get_some (item props : Obj) (k : String) (v : Value)
    (h : jsGet item k = some v) :
    includeStep item props k = objSet props k v := by
  rw [includeStep_eq_match, h]

theorem includeStep_of_get_none (item props : Obj) (k : String)
    (h : jsGet item k = none) :
    includeStep item props k = props := by
  rw [includeStep_eq_match, h]

/-! ### Lemmas about property selection -/

theorem foldl_includeStep_get (item : Obj) (incl : List String) :
    ∀ (props : Obj) (k : String),
      jsGet (incl.foldl (includeStep item) props) k
        = if k ∈ incl ∧ hasOwnProperty item k = true then jsGet item k
          else jsGet props k := by
  induction incl with
  | nil => intro props k; simp
  | cons k' rest ih =>
    intro props k
    rw [List.foldl_cons, ih]
    by_cases hmem : k ∈ rest ∧ hasOwnProperty item k = true
    · simp [hmem, hmem.1, hmem.2]
    · by_cases hk : k = k'
      · subst hk
        by_cases hhas : hasOwnProperty item k = true
        · have hs : (jsGet item k).isSome = true := by
            rw [← hasOwn_eq_isSome]; exact hhas
          obtain ⟨v, hv⟩ := Option.isSome_iff_exists.mp hs
          rw [includeStep_eq_match, hv]
          simp [hmem, hhas, jsGet_objSet_self, hv]
        · rw [includeStep_eq_match]
          have : jsGet item k = none := by
            rw [← Option.not_isSome_iff_eq_none, ← hasOwn_eq_isSome]
            simp [hhas]
          rw [this]
          simp [hmem, hhas]
      · have hstep : jsGet (includeStep item props k') k = jsGet props k := by
          rw [includeStep_eq_match]
          cases hv : jsGet item k' with
          | none => rfl
          | some v => exact jsGet_objSet_ne props k' k v hk
        rw [hstep]
        have hnot : ¬(k ∈ k' :: rest ∧ hasOwnProperty item k = true) := by
          intro hc
          rcases List.mem_cons.mp hc.1 with he | hm
          · exact hk he
          · exact hmem ⟨hm, hc.2⟩
        rw [if_neg hmem, if_neg hnot]

theorem foldl_includeStep_nodup (item : Obj) (incl : List String) :
    ∀ props : Obj, incl.Nodup →
      (∀ k ∈ incl, hasOwnProperty props k = false) →
      incl.foldl (includeStep item) props
        = props ++ incl.filterMap (fun k => (jsGet item k).map (fun v => (k, v))) := by
  induction incl with
  | nil => intro props _ _; simp
  | cons k rest ih =>
    intro props hnd hdis
    rw [List.foldl_cons, List.filterMap_cons]
    have hk := hdis k (List.mem_cons_self k rest)
    cases hj : jsGet item k with
    | none =>
      rw [includeStep_of_get_none item props k hj]
      simp only [hj, Option.map_none']
      exact ih props (List.nodup_cons.mp hnd).2
        (fun k' hk' => hdis k' (List.mem_cons_of_mem k hk'))
    | some v =>
      rw [includeStep_of_get_some item props k v hj]
      rw [objSet_of_not_has props k v hk]
      rw [ih (props ++ [(k, v)]) (List.nodup_cons.mp hnd).2 ?_]
      · simp
      · intro k' hk'
        have hne : k ≠ k' := fun he => (List.nodup_cons.mp hnd).1 (he ▸ hk')
        have h1 := hdis k' (List.mem_cons_of_mem k hk')
        rw [hasOwnProperty_append, h1, Bool.false_or]
        simp [hasOwnProperty, beq_eq_false_iff_ne.mpr hne]

theorem foldl_excludeStep (latKey lngKey : String) (l : List (String × Value)) :
    ∀ props : Obj, (l.map Prod.fst).Nodup →
      (∀ p ∈ l, hasOwnProperty props p.1 = false) →
      l.foldl (excludeStep latKey lngKey) props
        = props ++
          l.filter (fun p => p.1 != latKey && p.1 != lngKey && !(jsStartsWith p.1 "-")) := by
  induction l with
  | nil => intro props _ _; simp
  | cons p t ih =>
    intro props hnd hdis
    rw [List.map_cons, List.nodup_cons] at hnd
    have hp := hdis p (List.mem_cons_self p t)
    rw [List.foldl_cons, List.filter_cons]
    by_cases hc : (p.1 != latKey && p.1 != lngKey && !(jsStartsWith p.1 "-")) = true
    · rw [if_pos hc]
      have hstep : excludeStep latKey lngKey props p = props ++ [p] := by
        unfold excludeStep
        rw [if_pos hc, objSet_of_not_has props p.1 p.2 hp]
      rw [hstep]
      rw [ih (props ++ [p]) hnd.2 ?_]
      · simp
      · intro q hq
        have hne : p.1 ≠ q.1 := by
          intro he
          exact hnd.1 (he ▸ List.mem_map_of_mem Prod.fst hq)
        have h1 := hdis q (List.mem_cons_of_mem p hq)
        rw [hasOwnProperty_append, h1, Bool.false_or]
        simp [hasOwnProperty, beq_eq_false_iff_ne.mpr hne]
    · rw [if_neg hc]
      have hstep : excludeStep latKey lngKey props p = props := by
        unfold excludeStep
        rw [if_neg hc]
      rw [hstep]
      exact ih props hnd.2 (fun q hq => hdis q (List.mem_cons_of_mem p hq))

/-! ### Lemmas about the converter -/

theorem filterMap_id_map_some {α β : Type} (g : α → β) (l : List α) :
    (l.map (fun x => some (g x))).filterMap id = l.map g := by
  induction l with
  | nil => rfl
  | cons a t ih => simp [List.filterMap_cons, ih]

theorem convert_features (dataArray : List Obj) (latKey lngKey nm : String)
    (incl : List String) :
    (convertAssociativeArrayToGeoJSON dataArray latKey lngKey nm incl).features
      = dataArray.map (fun item => featureValue item latKey lngKey incl) := by
  show (dataArray.map (fun item => mkFeature item latKey lngKey incl)).filterMap id
      = dataArray.map (fun item => featureValue item latKey lngKey incl)
  exact filterMap_id_map_some _ dataArray

theorem convert_features_get (dataArray : List Obj) (latKey lngKey nm : String)
    (incl : List String) (i : Nat) (hi : i < dataArray.length)
    (hlen : i < (convertAssociativeArrayToGeoJSON dataArray latKey lngKey nm incl).features.length) :
    (convertAssociativeArrayToGeoJSON dataArray latKey lngKey nm incl).features.get ⟨i, hlen⟩
      = featureValue (dataArray.get ⟨i, hi⟩) latKey lngKey incl := by
  simp [convert_features, List.get_eq_getElem]

/-! ### Claim theorems -/

/-- C1: for every record whose latitude field parses to a number `L` and
whose longitude field parses to a number `G`, the converter produces for
that record a Point feature whose geometry coordinates are exactly
`[G, L]` — longitude first, latitude second. -/
theorem coordinates_lng_lat_order (dataArray : List Obj)
    (latKey lngKey nm : String) (incl : List String)
    (i : Nat) (hi : i < dataArray.length) (L G : ℚ)
    (hL : jsParseFloat (jsGet (dataArray.get ⟨i, hi⟩) latKey) = JsNum.num L)
    (hG : jsParseFloat (jsGet (dataArray.get ⟨i, hi⟩) lngKey) = JsNum.num G) :
    ∃ hlen : i < (convertAssociativeArrayToGeoJSON dataArray latKey lngKey nm incl).features.length,
      ((convertAssociativeArrayToGeoJSON dataArray latKey lngKey nm incl).features.get
          ⟨i, hlen⟩).ftype = "Feature" ∧
      ((convertAssociativeArrayToGeoJSON dataArray latKey lngKey nm incl).features.get
          ⟨i, hlen⟩).geometry
        = { gtype := "Point", coordinates := [JsNum.num G, JsNum.num L] } := by
  have hlen : i < (convertAssociativeArrayToGeoJSON dataArray latKey lngKey nm incl).features.length := by
    rw [convert_features, List.length_map]; exact hi
  simp only [List.get_eq_getElem] at hL hG
  refine ⟨hlen, ?_, ?_⟩
  · rw [convert_features_get dataArray latKey lngKey nm incl i hi hlen]
    rfl
  · rw [convert_features_get dataArray latKey lngKey nm incl i hi hlen]
    simp [featureValue, hL, hG]

/-- Witness for C1: the first E2E record of the spec
(`Latitude = 20.5`, `Longitude = 85.8`) yields coordinates
`[85.8, 20.5]`. -/
theorem coordinates_lng_lat_order_witness :
    ∃ hlen : 0 < (convertAssociativeArrayToGeoJSON
        [[("Latitude", Value.vNum (41/2)), ("Longitude", Value.vNum (429/5)),
          ("Name", Value.vStr "Alpha")]]
        "Latitude" "Longitude" "test" []).features.length,
      ((convertAssociativeArrayToGeoJSON
        [[("Latitude", Value.vNum (41/2)), ("Longitude", Value.vNum (429/5)),
          ("Name", Value.vStr "Alpha")]]
        "Latitude" "Longitude" "test" []).features.get ⟨0, hlen⟩).ftype = "Feature" ∧
      ((convertAssociativeArrayToGeoJSON
        [[("Latitude", Value.vNum (41/2)), ("Longitude", Value.vNum (429/5)),
          ("Name", Value.vStr "Alpha")]]
        "Latitude" "Longitude" "test" []).features.get ⟨0, hlen⟩).geometry
        = { gtype := "Point", coordinates := [JsNum.num (429/5), JsNum.num (41/2)] } :=
  coordinates_lng_lat_order
    [[("Latitude", Value.vNum (41/2)), ("Longitude", Value.vNum (429/5)),
      ("Name", Value.vStr "Alpha")]]
    "Latitude" "Longitude" "test" [] 0 (by decide) (41/2) (429/5) (by rfl) (by rfl)

/-- C4: the output features list has exactly one feature per input
record, in input order; the defensive null-filter removes nothing since
the per-record construction always yields a (non-null) feature. -/
theorem one_feature_per_record_in_order (dataArray : List Obj)
    (latKey lngKey nm : String) (incl : List String) :
    (convertAssociativeArrayToGeoJSON dataArray latKey lngKey nm incl).features.length
        = dataArray.length ∧
    (convertAssociativeArrayToGeoJSON dataArray latKey lngKey nm incl).features.map some
        = dataArray.map (fun item => mkFeature item latKey lngKey incl) := by
  constructor
  · rw [convert_features, List.length_map]
  · rw [convert_features, List.map_map]
    rfl

/-- C8: the converter is total — every record yields a feature (one per
record, no error); when the latitude field is absent or does not parse
to a number, the feature's latitude (second) coordinate is NaN, and
when the longitude field is absent or does not parse to a number, the
feature's longitude (first) coordinate is NaN, the other coordinate
being the ordinary parse in each case. -/
theorem nan_coordinates_never_fail (dataArray : List Obj)
    (latKey lngKey nm : String) (incl : List String)
    (i : Nat) (hi : i < dataArray.length) :
    (convertAssociativeArrayToGeoJSON dataArray latKey lngKey nm incl).features.length
        = dataArray.length ∧
    ∃ hlen : i < (convertAssociativeArrayToGeoJSON dataArray latKey lngKey nm incl).features.length,
      ((jsGet (dataArray.get ⟨i, hi⟩) latKey = none ∨
          jsParseFloat (jsGet (dataArray.get ⟨i, hi⟩) latKey) = JsNum.nan) →
        ((convertAssociativeArrayToGeoJSON dataArray latKey lngKey nm incl).features.get
            ⟨i, hlen⟩).geometry.coordinates
          = [jsParseFloat (jsGet (dataArray.get ⟨i, hi⟩) lngKey), JsNum.nan]) ∧
      ((jsGet (dataArray.get ⟨i, hi⟩) lngKey = none ∨
          jsParseFloat (jsGet (dataArray.get ⟨i, hi⟩) lngKey) = JsNum.nan) →
        ((convertAssociativeArrayToGeoJSON dataArray latKey lngKey nm incl).features.get
            ⟨i, hlen⟩).geometry.coordinates
          = [JsNum.nan, jsParseFloat (jsGet (dataArray.get ⟨i, hi⟩) latKey)]) := by
  have hlen : i < (convertAssociativeArrayToGeoJSON dataArray latKey lngKey nm incl).features.length := by
    rw [convert_features, List.length_map]; exact hi
  refine ⟨by rw [convert_features, List.length_map], hlen, ?_, ?_⟩
  · intro habs
    have hnan : jsParseFloat (jsGet (dataArray.get ⟨i, hi⟩) latKey) = JsNum.nan := by
      rcases habs with h | h
      · rw [h]; rfl
      · exact h
    simp only [List.get_eq_getElem] at hnan
    rw [convert_features_get dataArray latKey lngKey nm incl i hi hlen]
    simp [featureValue, hnan]
  · intro habs
    have hnan : jsParseFloat (jsGet (dataArray.get ⟨i, hi⟩) lngKey) = JsNum.nan := by
      rcases habs with h | h
      · rw [h]; rfl
      · exact h
    simp only [List.get_eq_getElem] at hnan
    rw [convert_features_get dataArray latKey lngKey nm incl i hi hlen]
    simp [featureValue, hnan]

/-- Witness for C8: a record with a numeric latitude but no longitude
field at all still yields a feature, with NaN in the longitude (first)
position and the parsed latitude in the second. -/
theorem nan_coordinates_never_fail_witness :
    (convertAssociativeArrayToGeoJSON [[("Latitude", Value.vNum 5)]]
        "Latitude" "Longitude" "t" []).features.length = 1 ∧
    ∃ hlen : 0 < (convertAssociativeArrayToGeoJSON [[("Latitude", Value.vNum 5)]]
        "Latitude" "Longitude" "t" []).features.length,
      ((convertAssociativeArrayToGeoJSON [[("Latitude", Value.vNum 5)]]
          "Latitude" "Longitude" "t" []).features.get ⟨0, hlen⟩).geometry.coordinates
        = [JsNum.nan, JsNum.num 5] := by
  obtain ⟨hl, hlen, _hlat, hlng⟩ := nan_coordinates_never_fail
    [[("Latitude", Value.vNum 5)]] "Latitude" "Longitude" "t" [] 0 (by decide)
  refine ⟨hl, hlen, ?_⟩
  have hc := hlng (Or.inl (by rfl))
  rw [hc]
  decide

/-- C2: with a non-empty include list, the properties of the resulting
feature are exactly the record's fields whose keys are listed — the
lookup of any key yields the record's value when the key is listed
(whatever the key is, including the latitude/longitude field names and
`-`-prefixed names) and nothing otherwise; for a duplicate-free include
list the properties are literally the listed keys in list order, paired
with the record's unchanged values. -/
theorem include_list_selects_intersection (item : Obj) (latKey lngKey : String)
    (incl : List String) (hne : incl ≠ []) :
    (∀ k, jsGet (mkProperties item latKey lngKey incl) k
        = if k ∈ incl then jsGet item k else none) ∧
    (incl.Nodup → mkProperties item latKey lngKey incl
        = incl.filterMap (fun k => (jsGet item k).map (fun v => (k, v)))) := by
  have hpos : incl.length > 0 := List.length_pos.mpr hne
  constructor
  · intro k
    unfold mkProperties
    rw [if_pos hpos, foldl_includeStep_get]
    by_cases h1 : k ∈ incl
    · by_cases h2 : hasOwnProperty item k = true
      · simp [h1, h2]
      · have hnone : jsGet item k = none := by
          rw [← Option.not_isSome_iff_eq_none, ← hasOwn_eq_isSome]
          simp [h2]
        simp [h1, h2, hnone, jsGet_nil]
    · simp [h1, jsGet_nil]
  · intro hnd
    unfold mkProperties
    rw [if_pos hpos]
    have := foldl_includeStep_nodup item incl [] hnd (by intro k _; rfl)
    simpa using this

/-- Witness for C2: an include list naming the latitude field, a
`-`-prefixed field, a plain field and an absent field selects exactly
the owned ones, in include order, values unchanged. -/
theorem include_list_selects_intersection_witness :
    jsGet (mkProperties
        [("Latitude", Value.vNum 1), ("-x", Value.vStr "h"), ("Name", Value.vStr "A")]
        "Latitude" "Longitude" ["Name", "Latitude", "-x", "Missing"]) "Latitude"
      = some (Value.vNum 1) ∧
    mkProperties
        [("Latitude", Value.vNum 1), ("-x", Value.vStr "h"), ("Name", Value.vStr "A")]
        "Latitude" "Longitude" ["Name", "Latitude", "-x", "Missing"]
      = [("Name", Value.vStr "A"), ("Latitude", Value.vNum 1), ("-x", Value.vStr "h")] := by
  have h := include_list_selects_intersection
    [("Latitude", Value.vNum 1), ("-x", Value.vStr "h"), ("Name", Value.vStr "A")]
    "Latitude" "Longitude" ["Name", "Latitude", "-x", "Missing"] (by decide)
  refine ⟨?_, ?_⟩
  · rw [h.1 "Latitude"]
    decide
  · rw [h.2 (by decide)]
    decide

/-- C3: with an empty include list, the resulting properties contain no
key equal to the latitude field name, none equal to the longitude field
name, and none starting with `-`; every other field of the record is
copied with its value unchanged (the properties are exactly the
filtered record). -/
theorem empty_include_excludes_reserved_fields (item : Obj)
    (latKey lngKey : String) (hW : (item.map Prod.fst).Nodup) :
    mkProperties item latKey lngKey []
        = item.filter (fun p => p.1 != latKey && p.1 != lngKey && !(jsStartsWith p.1 "-")) ∧
    (∀ p ∈ mkProperties item latKey lngKey [],
        p.1 ≠ latKey ∧ p.1 ≠ lngKey ∧ jsStartsWith p.1 "-" = false) ∧
    (∀ p ∈ item, p.1 ≠ latKey → p.1 ≠ lngKey → jsStartsWith p.1 "-" = false →
        p ∈ mkProperties item latKey lngKey []) := by
  have heq : mkProperties item latKey lngKey []
      = item.filter (fun p => p.1 != latKey && p.1 != lngKey && !(jsStartsWith p.1 "-")) := by
    unfold mkProperties
    simp only [List.length_nil, gt_iff_lt, lt_self_iff_false, if_false]
    have := foldl_excludeStep latKey lngKey item [] hW (by intro p _; rfl)
    simpa using this
  refine ⟨heq, ?_, ?_⟩
  · intro p hp
    rw [heq, List.mem_filter] at hp
    have hc := hp.2
    simp only [Bool.and_eq_true, bne_iff_ne, Bool.not_eq_true'] at hc
    exact ⟨hc.1.1, hc.1.2, hc.2⟩
  · intro p hp h1 h2 h3
    rw [heq, List.mem_filter]
    refine ⟨hp, ?_⟩
    simp only [Bool.and_eq_true, bne_iff_ne, Bool.not_eq_true']
    exact ⟨⟨h1, h2⟩, h3⟩

/-- Witness for C3: a record with latitude, longitude, a `-`-prefixed
field and a plain field keeps exactly the plain field. -/
theorem empty_include_excludes_reserved_fields_witness :
    mkProperties
        [("Latitude", Value.vNum 1), ("Longitude", Value.vNum 2),
         ("-hidden", Value.vStr "h"), ("Name", Value.vStr "A")]
        "Latitude" "Longitude" []
      = [("Name", Value.vStr "A")] := by
  have h := empty_include_excludes_reserved_fields
    [("Latitude", Value.vNum 1), ("Longitude", Value.vNum 2),
     ("-hidden", Value.vStr "h"), ("Name", Value.vStr "A")]
    "Latitude" "Longitude" (by decide)
  rw [h.1]
  decide

/-- C5: verification warns about `#REF!` whenever the text contains it
(even when `Loading` is also present), warns about `Loading` when the
text contains `Loading` but not `#REF!`, and returns nothing when the
text contains neither marker. -/
theorem verify_ref_priority_over_loading (data filename : String) :
    (jsIncludes data "#REF!" = true →
        verifyCleanData data filename = some ("#REF! found in " ++ filename)) ∧
    (jsIncludes data "#REF!" = false → jsIncludes data "Loading" = true →
        verifyCleanData data filename = some ("Loading... found in " ++ filename)) ∧
    (jsIncludes data "#REF!" = false → jsIncludes data "Loading" = false →
        verifyCleanData data filename = none) := by
  refine ⟨?_, ?_, ?_⟩
  · intro h
    simp [verifyCleanData, h]
  · intro h1 h2
    simp [verifyCleanData, h1, h2]
  · intro h1 h2
    simp [verifyCleanData, h1, h2]

/-- Witness for C5: the three marker situations on concrete texts,
including the both-markers case where only the `#REF!` warning
surfaces. -/
theorem verify_ref_priority_over_loading_witness :
    verifyCleanData "a#REF!bLoadingc" "f.csv" = some ("#REF! found in " ++ "f.csv") ∧
    verifyCleanData "bLoadingc" "g.csv" = some ("Loading... found in " ++ "g.csv") ∧
    verifyCleanData "clean data" "h.csv" = none :=
  ⟨(verify_ref_priority_over_loading "a#REF!bLoadingc" "f.csv").1 (by decide),
   (verify_ref_priority_over_loading "bLoadingc" "g.csv").2.1 (by decide) (by decide),
   (verify_ref_priority_over_loading "clean data" "h.csv").2.2 (by decide) (by decide)⟩

/-- The artifact base name as the spec's words describe it: the dataset
name with all whitespace *removed*. Stated only to compare against the
source behaviour. -/
def specRemoveWs (s : String) : String :=
  ⟨s.data.filter (fun c => !(isJsWhitespace c))⟩

/-- Counterexample to C6 as stated: for the catalog dataset
`Fire Stations`, the code writes `Fire-Stations.csv` (whitespace
replaced by dashes), not `FireStations.csv` (whitespace removed). -/
theorem cache_names_whitespace_removed_counterexample :
    cacheArtifactNames "Fire Stations"
        = ["Fire-Stations.csv", "Fire-Stations.geojson", "Fire-Stations.min.geojson"] ∧
    specRemoveWs "Fire Stations" = "FireStations" ∧
    cacheArtifactNames "Fire Stations"
        ≠ [specRemoveWs "Fire Stations" ++ ".csv",
           specRemoveWs "Fire Stations" ++ ".geojson",
           specRemoveWs "Fire Stations" ++ ".min.geojson"] := by
  refine ⟨by decide, by decide, by decide⟩

/-- C6 (amended): the three artifact names are the dataset name with
every whitespace character replaced by `-` (same length, non-whitespace
characters kept in place, result whitespace-free), with suffixes
`.csv`, `.geojson` and `.min.geojson`. -/
theorem cache_names_whitespace_dashed (dataset : String) :
    cacheArtifactNames dataset
        = [jsReplaceWsGlobal dataset ++ ".csv",
           jsReplaceWsGlobal dataset ++ ".geojson",
           jsReplaceWsGlobal dataset ++ ".min.geojson"] ∧
    (jsReplaceWsGlobal dataset).data.length = dataset.data.length ∧
    (∀ c ∈ (jsReplaceWsGlobal dataset).data, isJsWhitespace c = false) ∧
    (∀ i : Nat, (jsReplaceWsGlobal dataset).data.get? i
        = (dataset.data.get? i).map (fun c => if isJsWhitespace c then '-' else c)) := by
  refine ⟨rfl, ?_, ?_, ?_⟩
  · simp [jsReplaceWsGlobal]
  · intro c hc
    simp only [jsReplaceWsGlobal] at hc
    rcases List.mem_map.mp hc with ⟨c', _, rfl⟩
    by_cases h : isJsWhitespace c' = true
    · simp only [h, if_true]
      decide
    · simp only [Bool.not_eq_true] at h
      simp [h]
  · intro i
    simp [jsReplaceWsGlobal, List.get?_eq_getElem?, List.getElem?_map]

/-- Witness for C6 (amended): in `Fire Stations` the space at index 4
becomes a dash. -/
theorem cache_names_whitespace_dashed_witness :
    (jsReplaceWsGlobal "Fire Stations").data.get? 4 = some '-' := by
  rw [(cache_names_whitespace_dashed "Fire Stations").2.2.2 4]
  decide

/-- The collection name as the spec's words describe it: dataset name
lower-cased with *all* spaces replaced by dashes. Stated only to
compare against the source behaviour. -/
def specCollapseSpaces (s : String) : String :=
  ⟨(jsToLowerCase s).data.map (fun c => if c = ' ' then '-' else c)⟩

/-- Counterexample to C7 as stated: for the catalog dataset
`Civil Supplies Godowns` (two spaces), `String.replace` with a string
pattern replaces only the first space, so the collection name is
`civil-supplies godowns`, not `civil-supplies-godowns`. -/
theorem collection_name_all_spaces_counterexample :
    collectionName "Civil Supplies Godowns" = "civil-supplies godowns" ∧
    specCollapseSpaces "Civil Supplies Godowns" = "civil-supplies-godowns" ∧
    collectionName "Civil Supplies Godowns"
        ≠ specCollapseSpaces "Civil Supplies Godowns" := by
  refine ⟨by decide, by decide, by decide⟩

theorem replaceFirstAux_space (post : List Char) :
    ∀ pre : List Char, ' ' ∉ pre →
      replaceFirstAux (pre ++ ' ' :: post) [' '] ['-'] = pre ++ '-' :: post := by
  intro pre
  induction pre with
  | nil =>
    intro _
    simp [replaceFirstAux, List.isPrefixOf]
  | cons c t ih =>
    intro hmem
    have hc : ¬c = ' ' := fun he => hmem (by rw [he]; exact List.mem_cons_self ..)
    have hpre : [' '].isPrefixOf (c :: (t ++ ' ' :: post)) = false := by
      simp [List.isPrefixOf, beq_eq_false_iff_ne.mpr (fun he => hc he.symm)]
    rw [List.cons_append, replaceFirstAux, if_neg (by simp [hpre])]
    rw [ih (fun hm => hmem (List.mem_cons_of_mem c hm))]
    rfl

/-- C7 (amended): the collection name passed to the converter — and
hence the `name` field of the produced FeatureCollection — is the
dataset name lower-cased with only its *first* space replaced by `-`;
any later spaces are left unchanged. -/
theorem collection_name_first_space_only (dataset : String)
    (pre post : List Char)
    (hsplit : (jsToLowerCase dataset).data = pre ++ ' ' :: post)
    (hpre : ' ' ∉ pre) :
    (collectionName dataset).data = pre ++ '-' :: post ∧
    ∀ records : List Obj,
      (fetchedGeoJson records dataset).name = collectionName dataset := by
  constructor
  · show (jsReplaceFirst (jsToLowerCase dataset) " " "-").data = pre ++ '-' :: post
    unfold jsReplaceFirst
    rw [hsplit]
    exact replaceFirstAux_space post pre hpre
  · intro records
    rfl

/-- Witness for C7 (amended): `Civil Supplies Godowns` lower-cases to
`civil supplies godowns` and only the first space is dashed. -/
theorem collection_name_first_space_only_witness :
    (collectionName "Civil Supplies Godowns").data
      = "civil".data ++ '-' :: "supplies godowns".data :=
  (collection_name_first_space_only "Civil Supplies Godowns"
    "civil".data "supplies godowns".data (by decide) (by decide)).1

/-- C9: the catalog literal lists 21 entries, binding the identifier
`"0"` four times (to Fire Stations, Capacity Building, High Density
Spaces and Boats); the evaluated object keeps only the last binding, so
the batch driver iterates over 18 distinct identifiers, `"0"` maps to
`Boats`, and the three earlier display names bound to `"0"` are never
fetched. -/
theorem catalog_duplicate_zero_key_last_wins :
    catalogEntries.length = 21 ∧
    (catalogEntries.filter (fun p => p.1 == "0")).map (fun p => p.2)
        = ["Fire Stations", "Capacity Building", "High Density Spaces", "Boats"] ∧
    batchIdentifiers.length = 18 ∧
    batchIdentifiers.Nodup ∧
    jsGet dataSets "0" = some "Boats" ∧
    "Fire Stations" ∉ fetchedDatasetNames ∧
    "Capacity Building" ∉ fetchedDatasetNames ∧
    "High Density Spaces" ∉ fetchedDatasetNames ∧
    "Boats" ∈ fetchedDatasetNames := by
  refine ⟨by decide, by decide, by decide, by decide, by decide,
    by decide, by decide, by decide, by decide⟩

/-! ### Frame lemmas: the converter only writes freshly allocated cells -/

theorem readH_writeH_ne (h : Heap) (a b : Nat) (o : Obj) (hne : a ≠ b) :
    readH (writeH h b o) a = readH h a := by
  simp [readH, writeH, List.getD_eq_getElem?_getD,
    List.getElem?_set_ne (Ne.symm hne)]

theorem readH_alloc_ne (h : Heap) (o : Obj) (a : Nat) (hne : a ≠ h.length) :
    readH (h ++ [o]) a = readH h a := by
  rcases Nat.lt_or_ge a h.length with hlt | hge
  · simp [readH, List.getD_eq_getElem?_getD, List.getElem?_append_left hlt]
  · have h1 : h.length ≤ a := hge
    have h2 : (h ++ [o]).length ≤ a := by
      rw [List.length_append, List.length_singleton]
      omega
    simp [readH, List.getD_eq_getElem?_getD,
      List.getElem?_eq_none h1, List.getElem?_eq_none h2]

theorem foldl_writes_only {β : Type} (step : Heap → β → Heap) (pa : Nat)
    (hstep : ∀ hh x a, a ≠ pa → readH (step hh x) a = readH hh a)
    (hlen : ∀ hh x, (step hh x).length = hh.length) (l : List β) :
    ∀ hh : Heap,
      (∀ a, a ≠ pa → readH (l.foldl step hh) a = readH hh a) ∧
      (l.foldl step hh).length = hh.length := by
  induction l with
  | nil => intro hh; exact ⟨fun a _ => rfl, rfl⟩
  | cons x t ih =>
    intro hh
    rw [List.foldl_cons]
    refine ⟨fun a ha => ?_, ?_⟩
    · rw [(ih (step hh x)).1 a ha, hstep hh x a ha]
    · rw [(ih (step hh x)).2, hlen hh x]

theorem includeStepH_frame (ia pa : Nat) (hh : Heap) (k : String) (a : Nat)
    (ha : a ≠ pa) :
    readH (includeStepH ia pa hh k) a = readH hh a := by
  unfold includeStepH
  by_cases h1 : hasOwnProperty (readH hh ia) k = true
  · rw [if_pos h1]
    cases hv : jsGet (readH hh ia) k
    · rfl
    · exact readH_writeH_ne hh a pa _ ha
  · rw [if_neg h1]

theorem includeStepH_length (ia pa : Nat) (hh : Heap) (k : String) :
    (includeStepH ia pa hh k).length = hh.length := by
  unfold includeStepH
  by_cases h1 : hasOwnProperty (readH hh ia) k = true
  · rw [if_pos h1]
    cases hv : jsGet (readH hh ia) k
    · rfl
    · exact List.length_set hh pa _
  · rw [if_neg h1]

theorem excludeStepH_frame (ia pa : Nat) (latKey lngKey : String) (hh : Heap)
    (p : String × Value) (a : Nat) (ha : a ≠ pa) :
    readH (excludeStepH ia pa latKey lngKey hh p) a = readH hh a := by
  unfold excludeStepH
  by_cases h1 : (p.1 != latKey && p.1 != lngKey && !(jsStartsWith p.1 "-")) = true
  · rw [if_pos h1]
    exact readH_writeH_ne hh a pa _ ha
  · rw [if_neg h1]

theorem excludeStepH_length (ia pa : Nat) (latKey lngKey : String) (hh : Heap)
    (p : String × Value) :
    (excludeStepH ia pa latKey lngKey hh p).length = hh.length := by
  unfold excludeStepH
  by_cases h1 : (p.1 != latKey && p.1 != lngKey && !(jsStartsWith p.1 "-")) = true
  · rw [if_pos h1]
    exact List.length_set hh pa _
  · rw [if_neg h1]

theorem mkPropertiesH_frame (h : Heap) (ia : Nat) (latKey lngKey : String)
    (incl : List String) :
    (mkPropertiesH h ia latKey lngKey incl).2 = h.length ∧
    (mkPropertiesH h ia latKey lngKey incl).1.length = h.length + 1 ∧
    (∀ a, a ≠ h.length →
        readH (mkPropertiesH h ia latKey lngKey incl).1 a = readH h a) := by
  have halloc1 : (allocH h []).1 = h ++ [[]] := rfl
  have halloc2 : (allocH h []).2 = h.length := rfl
  by_cases hc : incl.length > 0
  · have hres : mkPropertiesH h ia latKey lngKey incl
        = (incl.foldl (includeStepH ia h.length) (h ++ [[]]), h.length) := by
      unfold mkPropertiesH
      rw [if_pos hc]
      rfl
    have hfold := foldl_writes_only (includeStepH ia h.length) h.length
      (fun hh x a ha => includeStepH_frame ia h.length hh x a ha)
      (fun hh x => includeStepH_length ia h.length hh x) incl (h ++ [[]])
    refine ⟨by rw [hres], ?_, ?_⟩
    · rw [hres]
      show (incl.foldl (includeStepH ia h.length) (h ++ [[]])).length = h.length + 1
      rw [hfold.2, List.length_append, List.length_singleton]
    · intro a ha
      rw [hres]
      show readH (incl.foldl (includeStepH ia h.length) (h ++ [[]])) a = readH h a
      rw [hfold.1 a ha, readH_alloc_ne h [] a ha]
  · have hres : mkPropertiesH h ia latKey lngKey incl
        = ((readH (h ++ [[]]) ia).foldl
            (excludeStepH ia h.length latKey lngKey) (h ++ [[]]), h.length) := by
      unfold mkPropertiesH
      rw [if_neg hc]
      rfl
    have hfold := foldl_writes_only (excludeStepH ia h.length latKey lngKey)
      h.length
      (fun hh x a ha => excludeStepH_frame ia h.length latKey lngKey hh x a ha)
      (fun hh x => excludeStepH_length ia h.length latKey lngKey hh x)
      (readH (h ++ [[]]) ia) (h ++ [[]])
    refine ⟨by rw [hres], ?_, ?_⟩
    · rw [hres]
      show ((readH (h ++ [[]]) ia).foldl
          (excludeStepH ia h.length latKey lngKey) (h ++ [[]])).length = h.length + 1
      rw [hfold.2, List.length_append, List.length_singleton]
    · intro a ha
      rw [hres]
      show readH ((readH (h ++ [[]]) ia).foldl
          (excludeStepH ia h.length latKey lngKey) (h ++ [[]])) a = readH h a
      rw [hfold.1 a ha, readH_alloc_ne h [] a ha]

theorem mkFeatureH_frame (h : Heap) (ia : Nat) (latKey lngKey : String)
    (incl : List String) :
    (mkFeatureH h ia latKey lngKey incl).1.length = h.length + 1 ∧
    (∀ a, a ≠ h.length →
        readH (mkFeatureH h ia latKey lngKey incl).1 a = readH h a) ∧
    (mkFeatureH h ia latKey lngKey incl).2.propertiesAddr = h.length := by
  have hp := mkPropertiesH_frame h ia latKey lngKey incl
  exact ⟨hp.2.1, hp.2.2, hp.1⟩

theorem convertH_loop_frame (latKey lngKey : String) (incl : List String)
    (addrs : List Nat) :
    ∀ (h0 : Heap) (fs0 : List FeatureH),
      (∀ a, a < h0.length →
          readH (addrs.foldl (convertLoopStep latKey lngKey incl) (h0, fs0)).1 a
            = readH h0 a) ∧
      h0.length ≤ (addrs.foldl (convertLoopStep latKey lngKey incl) (h0, fs0)).1.length ∧
      (∀ f ∈ (addrs.foldl (convertLoopStep latKey lngKey incl) (h0, fs0)).2,
          f ∈ fs0 ∨ h0.length ≤ f.propertiesAddr) := by
  induction addrs with
  | nil =>
    intro h0 fs0
    exact ⟨fun a _ => rfl, Nat.le_refl _, fun f hf => Or.inl hf⟩
  | cons ia rest ih =>
    intro h0 fs0
    rw [List.foldl_cons]
    have hstep : convertLoopStep latKey lngKey incl (h0, fs0) ia
        = ((mkFeatureH h0 ia latKey lngKey incl).1,
            fs0 ++ [(mkFeatureH h0 ia latKey lngKey incl).2]) := rfl
    rw [hstep]
    have hfr := mkFeatureH_frame h0 ia latKey lngKey incl
    have hih := ih (mkFeatureH h0 ia latKey lngKey incl).1
      (fs0 ++ [(mkFeatureH h0 ia latKey lngKey incl).2])
    refine ⟨?_, ?_, ?_⟩
    · intro a ha
      have ha1 : a < (mkFeatureH h0 ia latKey lngKey incl).1.length := by
        rw [hfr.1]; omega
      rw [hih.1 a ha1, hfr.2.1 a (by omega)]
    · have := hih.2.1
      rw [hfr.1] at this
      omega
    · intro f hf
      rcases hih.2.2 f hf with hmem | hge
      · rcases List.mem_append.mp hmem with hin | hone
        · exact Or.inl hin
        · right
          rw [List.mem_singleton.mp hone, hfr.2.2]
      · right
        rw [hfr.1] at hge
        omega

/-! ### Claim theorem for the frame property -/

/-- C10: the converter never mutates its inputs — running the
store-instrumented converter on any heap leaves every pre-existing
object (in particular every input record) unchanged, and the
`properties` object of every produced feature is a freshly allocated
object (its address is outside the original heap), not one of the
records. -/
theorem converter_never_mutates_records (h : Heap) (addrs : List Nat)
    (latKey lngKey nm : String) (incl : List String) :
    (∀ a, a < h.length →
        readH (convertH h addrs latKey lngKey nm incl).1 a = readH h a) ∧
    (∀ f ∈ (convertH h addrs latKey lngKey nm incl).2.features,
        h.length ≤ f.propertiesAddr) := by
  have hl := convertH_loop_frame latKey lngKey incl addrs h []
  refine ⟨hl.1, fun f hf => ?_⟩
  rcases hl.2.2 f hf with hmem | hge
  · exact absurd hmem (List.not_mem_nil f)
  · exact hge

/-- Witness for C10: on a one-record heap the record cell is unchanged
by the conversion. -/
theorem converter_never_mutates_records_witness :
    readH (convertH [[("A", Value.vNum 1)]] [0] "Latitude" "Longitude" "t" []).1 0
      = [("A", Value.vNum 1)] := by
  have h := (converter_never_mutates_records [[("A", Value.vNum 1)]] [0]
    "Latitude" "Longitude" "t" []).1 0 (by decide)
  rw [h]
  rfl

end SheetsToGeoJson
